import Mathlib

/-!
Verification development for the CrossPad PC audio core.

This file gives a shallow embedding, in Lean 4, of

* the SPSC ring buffer `AudioRingBuffer<T>` (src/src/audio/AudioRingBuffer.hpp),
* the mixing engine `AudioMixerEngine` per-chunk computation
  (MixerPadLogic.cpp / AudioMixerEngine.cpp / AudioMixerEngine.hpp),
* the state persistence layer `saveState` / `loadState`,

and proves (or refutes on concrete inputs) the specified properties of the
round trip, truncation, gating, metering and persistence behaviour.

Modelling conventions:

* `size_t` is modelled as `Nat` with explicit reduction `% W` (`W = 2 ^ 64`)
  wherever the C++ code can wrap (the free-running `head_` / `tail_`
  counters and the `h - t + capacity_` expression).
* `int16_t` / `int32_t` sample values are modelled as `Int`.  Signed
  overflow of `int32_t` is undefined behaviour in C++, so the `int32_t`
  accumulator arithmetic is modelled on unbounded `Int` (exact on every
  defined execution); the one place where the code relies on the
  implementation-defined wrap of a narrowing conversion to `int16_t`
  (the `(int16_t)-x` in `computePeak`) is modelled explicitly by `wrap16`.
* `float` control values (volumes) are modelled as `ℚ`; the cast
  `static_cast<int32_t>(g * 256.0f)` truncates toward zero and is modelled
  by `ratTrunc`.
* The C++ `>> 8` on a signed `int32_t` is an arithmetic shift, i.e. floor
  division by 256, modelled by `sar8`.
* `std::memcpy` into a region of a buffer is modelled by `listWrite`.
-/

namespace CrossPad

/-- Modulus of `size_t` on the 64-bit PC build. -/
def W : Nat := 2 ^ 64

/-- Overwrite the elements of `dst` starting at offset `off` with the
elements of `src` (the model of `memcpy(dst + off, src, src.len)`);
writes past the end of `dst` are dropped (the code never produces them). -/
def listWrite {α : Type} : List α → Nat → List α → List α
  | dst, _, [] => dst
  | [], _, _ => []
  | _ :: dst, 0, s :: src => s :: listWrite dst 0 src
  | d :: dst, n + 1, src => d :: listWrite dst n src

/-- State of `AudioRingBuffer<T>`: backing vector, `capacity_`, and the two
free-running position counters `head_` and `tail_`. -/
structure AudioRingBuffer (α : Type) where
  buffer : List α
  capacity : Nat
  head : Nat
  tail : Nat

namespace AudioRingBuffer

/-- The constructor `AudioRingBuffer(capacity)`: value-initialised backing
vector (`zero` is the value-initialised element), counters at 0. -/
def mkRing {α : Type} (capacity : Nat) (zero : α) : AudioRingBuffer α :=
  ⟨List.replicate capacity zero, capacity, 0, 0⟩

/-- The member `resize(capacity)`: `std::vector::resize` keeps a prefix and
value-initialises any new elements; both counters are reset to 0. -/
def resize {α : Type} (rb : AudioRingBuffer α) (capacity : Nat) (zero : α) :
    AudioRingBuffer α :=
  ⟨rb.buffer.take capacity ++ List.replicate (capacity - rb.buffer.length) zero,
   capacity, 0, 0⟩

/-- The value of the member `available()`: `(h - t + capacity_) %
capacity_` in `size_t` arithmetic (each intermediate reduced `% W`).  This
is the C++ value only for `capacity_ >= 1`: the source has no
zero-capacity guard here, and at capacity 0 the modulo is a division by
zero (undefined behaviour), which the fallible `availableChecked` below
makes explicit; every use of this total version sits under a
`1 ≤ capacity` hypothesis. -/
def availableElems {α : Type} (rb : AudioRingBuffer α) : Nat :=
  ((rb.head + (W - rb.tail)) % W + rb.capacity) % W % rb.capacity

/-- The value of the member `space()`: `capacity_ - 1 - available()`, with
the same capacity >= 1 caveat as `availableElems`. -/
def space {α : Type} (rb : AudioRingBuffer α) : Nat :=
  rb.capacity - 1 - rb.availableElems

/-- The member `available()` as a fallible computation: the source
evaluates `% capacity_` unconditionally (no zero-capacity guard, unlike
`write` and `read`), so on a capacity-0 buffer the public call performs a
division by zero — undefined behaviour, modelled as `none`. -/
def availableChecked {α : Type} (rb : AudioRingBuffer α) : Option Nat :=
  if rb.capacity = 0 then none
  else some (((rb.head + (W - rb.tail)) % W + rb.capacity) % W % rb.capacity)

/-- The member `space()` as a fallible computation:
`capacity_ - 1 - available()`, undefined whenever `available()` is. -/
def spaceChecked {α : Type} (rb : AudioRingBuffer α) : Option Nat :=
  (availableChecked rb).map fun a => rb.capacity - 1 - a

/-- The member `write(data, count)` with `count = data.length`: returns the
number of elements written and the updated buffer. -/
def write {α : Type} (rb : AudioRingBuffer α) (data : List α) :
    Nat × AudioRingBuffer α :=
  if rb.capacity = 0 then (0, rb) else
  let h := rb.head
  let t := rb.tail
  let avail := rb.capacity - 1 - (((h + (W - t)) % W + rb.capacity) % W % rb.capacity)
  let count := min data.length avail
  if count = 0 then (0, rb) else
  let pos := h % rb.capacity
  let first := if pos + count ≤ rb.capacity then count else rb.capacity - pos
  let buf1 := listWrite rb.buffer pos (data.take first)
  let buf2 := if first < count then
      listWrite buf1 0 ((data.drop first).take (count - first)) else buf1
  (count, { rb with buffer := buf2, head := (h + count) % W })

/-- The member `read(data, count)` with `count = dst.length`, `dst` being the
caller-supplied destination buffer (its prior contents matter because the
code does not overwrite all of it on the wrap path).  Returns the count,
the destination buffer after the copies, and the updated ring state.

Note the second copy is transcribed exactly as in the source:
`memcpy(data, buffer_.data() + first, (count - first) * sizeof(T))` —
destination offset 0 and source offset `first`. -/
def read {α : Type} (rb : AudioRingBuffer α) (dst : List α) :
    Nat × List α × AudioRingBuffer α :=
  if rb.capacity = 0 then (0, dst, rb) else
  let t := rb.tail
  let h := rb.head
  let avail := ((h + (W - t)) % W + rb.capacity) % W % rb.capacity
  let count := min dst.length avail
  if count = 0 then (0, dst, rb) else
  let pos := t % rb.capacity
  let first := if pos + count ≤ rb.capacity then count else rb.capacity - pos
  let d1 := listWrite dst 0 ((rb.buffer.drop pos).take first)
  let d2 := if first < count then
      listWrite d1 0 ((rb.buffer.drop first).take (count - first)) else d1
  (count, d2, { rb with tail := (t + count) % W })

end AudioRingBuffer

open AudioRingBuffer

/-- A concrete session on a ring buffer of capacity 4 that makes the read
cross the wrap boundary: write 3, read 3 (advancing both counters to 3),
write the two elements 10, 20 (stored split: slot 3 and slot 0), then read
2 elements into a zeroed destination buffer. -/
def wrapReadDemo : Nat × List Int × AudioRingBuffer Int :=
  read (write (read (write (mkRing 4 (0 : Int)) [1, 2, 3]).2 [0, 0, 0]).2.2
      [10, 20]).2 [0, 0]

end CrossPad

/-- Claim C1: the spec states the wrap-crossing ring buffer round trip
returns the original sequence.  The code's `read` wrap path copies from
storage offset `first` into offset 0 of the destination (instead of from
offset 0 of the storage into `data + first`), so after writing `[10, 20]`
across the boundary a 2-element read reports 2 elements read but delivers
`[2, 0]` (a stale storage slot and a never-written destination slot)
instead of `[10, 20]`. -/
theorem c1_ring_roundtrip_wrap_bug :
    CrossPad.wrapReadDemo.1 = 2 ∧
    CrossPad.wrapReadDemo.2.1 = [2, 0] ∧
    CrossPad.wrapReadDemo.2.1 ≠ [10, 20] := by
  decide

open CrossPad CrossPad.AudioRingBuffer

/-- Claim C10 counterexample: the claim says no division by zero is
reachable at the public interface, but the public `available()` and
`space()` carry no zero-capacity guard: on the default-constructed
(capacity-0) buffer they evaluate `% capacity_` with divisor 0 —
undefined behaviour, so neither produces a value. -/
theorem c10_available_zero_divisor :
    availableChecked (mkRing 0 (0 : Int)) = none ∧
    spaceChecked (mkRing 0 (0 : Int)) = none := by
  decide

/-- Claim C10 (amended): with capacity 0 (as constructed by default or
after a resize to 0), `write` and `read` return 0 immediately and change
nothing — their explicit zero-capacity guard sits before every modulo by
the capacity — but the guardless public `available()` and `space()` do
evaluate the modulo even then and hit a zero divisor, so the
no-division-by-zero property holds for `write`/`read` only. -/
theorem c10_zero_capacity_safe {α : Type} (rb : AudioRingBuffer α)
    (data dst : List α) (z : α) (h0 : rb.capacity = 0) :
    write rb data = (0, rb) ∧ read rb dst = (0, dst, rb) ∧
    (mkRing 0 z).capacity = 0 ∧ (resize rb 0 z).capacity = 0 ∧
    availableChecked rb = none ∧ spaceChecked rb = none := by
  refine ⟨?_, ?_, rfl, rfl, ?_, ?_⟩ <;>
    simp [write, AudioRingBuffer.read, availableChecked, spaceChecked, h0]

/-- Witness instantiating the zero-capacity theorem. -/
theorem c10_zero_capacity_safe_witness :
    (mkRing 0 (0 : Int)).capacity = 0 ∧
    (write (mkRing 0 (0 : Int)) [7, 8] = (0, mkRing 0 (0 : Int)) ∧
     read (mkRing 0 (0 : Int)) [0] = (0, [0], mkRing 0 (0 : Int)) ∧
     (mkRing 0 (0 : Int)).capacity = 0 ∧
     (resize (mkRing 0 (0 : Int)) 0 0).capacity = 0 ∧
     availableChecked (mkRing 0 (0 : Int)) = none ∧
     spaceChecked (mkRing 0 (0 : Int)) = none) :=
  ⟨rfl, c10_zero_capacity_safe (mkRing 0 (0 : Int)) [7, 8] [0] 0 rfl⟩

namespace CrossPad

theorem listWrite_length {α : Type} :
    ∀ (dst : List α) (off : Nat) (src : List α),
      (listWrite dst off src).length = dst.length
  | dst, off, [] => by cases dst <;> cases off <;> simp [listWrite]
  | [], off, _ :: _ => by cases off <;> simp [listWrite]
  | _ :: dst, 0, s :: src => by
      simp [listWrite, listWrite_length dst 0 src]
  | _ :: dst, n + 1, s :: src => by
      simp [listWrite, listWrite_length dst n (s :: src)]

theorem listWrite_getD_in {α : Type} (d : α) :
    ∀ (dst : List α) (off : Nat) (src : List α) (k : Nat),
      off ≤ k → k < off + src.length → k < dst.length →
      (listWrite dst off src).getD k d = src.getD (k - off) d
  | dst, off, [], k => by intro h1 h2 _; simp at h2; omega
  | [], _, _ :: _, k => by intro _ _ h3; simp at h3
  | _ :: dst, 0, s :: src, 0 => by intro _ _ _; simp [listWrite]
  | _ :: dst, 0, s :: src, k + 1 => by
      intro _ h2 h3
      have ih := listWrite_getD_in d dst 0 src k (Nat.zero_le k)
        (by simpa using Nat.lt_of_succ_lt_succ h2) (Nat.lt_of_succ_lt_succ h3)
      simpa [listWrite] using ih
  | _ :: dst, n + 1, s :: src, 0 => by intro h1 _ _; omega
  | _ :: dst, n + 1, s :: src, k + 1 => by
      intro h1 h2 h3
      have ih := listWrite_getD_in d dst n (s :: src) k
        (Nat.le_of_succ_le_succ h1) (by simp at h2 ⊢; omega)
        (Nat.lt_of_succ_lt_succ h3)
      simpa [listWrite, Nat.succ_sub_succ] using ih

theorem listWrite_getD_out {α : Type} (d : α) :
    ∀ (dst : List α) (off : Nat) (src : List α) (k : Nat),
      (k < off ∨ off + src.length ≤ k) →
      (listWrite dst off src).getD k d = dst.getD k d
  | dst, off, [], k => by intro _; cases dst <;> cases off <;> simp [listWrite]
  | [], _, _ :: _, k => by intro _; cases k <;> simp [listWrite]
  | _ :: dst, 0, s :: src, 0 => by intro h; simp at h
  | _ :: dst, 0, s :: src, k + 1 => by
      intro h
      have ih := listWrite_getD_out d dst 0 src k (by simp at h ⊢; omega)
      simpa [listWrite] using ih
  | _ :: dst, n + 1, s :: src, 0 => by intro _; simp [listWrite]
  | _ :: dst, n + 1, s :: src, k + 1 => by
      intro h
      have ih := listWrite_getD_out d dst n (s :: src) k (by simp at h ⊢; omega)
      simpa [listWrite] using ih

theorem take_getD {α : Type} (l : List α) (n j : Nat) (d : α) (h : j < n) :
    (l.take n).getD j d = l.getD j d := by
  simp [List.getD_eq_getElem?_getD, List.getElem?_take, h]

theorem drop_getD {α : Type} (l : List α) (n j : Nat) (d : α) :
    (l.drop n).getD j d = l.getD (n + j) d := by
  simp [List.getD_eq_getElem?_getD, List.getElem?_drop]

end CrossPad

namespace CrossPad

theorem twoSeg_length {α : Type} (buf data : List α) (pos n first : Nat) :
    (if first < n then
        listWrite (listWrite buf pos (data.take first)) 0
          ((data.drop first).take (n - first))
      else listWrite buf pos (data.take first)).length = buf.length := by
  by_cases hflt : first < n <;> simp [hflt, listWrite_length]

theorem twoSeg_getD_in {α : Type} (d : α) (buf data : List α)
    (c pos n first : Nat)
    (hfirst : first = if pos + n ≤ c then n else c - pos)
    (hc : buf.length = c) (hpos : pos < c) (hn1 : n ≤ c - 1) (hc1 : 1 ≤ c)
    (hnd : n ≤ data.length) (j : Nat) (hj : j < n) :
    (if first < n then
        listWrite (listWrite buf pos (data.take first)) 0
          ((data.drop first).take (n - first))
      else listWrite buf pos (data.take first)).getD ((pos + j) % c) d =
      data.getD j d := by
  by_cases hsplit : pos + n ≤ c
  · have hf : first = n := by rw [hfirst, if_pos hsplit]
    subst hf
    have htk : (data.take first).length = first := by
      simp [List.length_take]; omega
    have hidx : pos + j < c := by omega
    rw [if_neg (lt_irrefl first), Nat.mod_eq_of_lt hidx,
      listWrite_getD_in d buf pos (data.take first) (pos + j)
        (Nat.le_add_right pos j) (by omega) (by omega),
      Nat.add_sub_cancel_left, take_getD data first j d hj]
  · have hf : first = c - pos := by rw [hfirst, if_neg hsplit]
    have hflt : first < n := by omega
    have htk : (data.take first).length = first := by
      simp [List.length_take]; omega
    have hseg : ((data.drop first).take (n - first)).length = n - first := by
      simp [List.length_take, List.length_drop]; omega
    rw [if_pos hflt]
    by_cases hjf : j < first
    · have hidx : pos + j < c := by omega
      rw [Nat.mod_eq_of_lt hidx,
        listWrite_getD_out d _ 0 _ (pos + j) (Or.inr (by omega)),
        listWrite_getD_in d buf pos (data.take first) (pos + j)
          (Nat.le_add_right pos j) (by omega) (by omega),
        Nat.add_sub_cancel_left, take_getD data first j d hjf]
    · have hidx : (pos + j) % c = j - first := by
        have hcj : pos + j = c + (j - first) := by omega
        rw [hcj, Nat.add_mod_left, Nat.mod_eq_of_lt (by omega)]
      have hlen1 : (listWrite buf pos (data.take first)).length = c := by
        rw [listWrite_length, hc]
      rw [hidx,
        listWrite_getD_in d _ 0 _ (j - first) (Nat.zero_le _)
          (by omega) (by omega),
        Nat.sub_zero, take_getD _ (n - first) (j - first) d (by omega),
        drop_getD]
      congr 1
      omega

theorem twoSeg_getD_out {α : Type} (d : α) (buf data : List α)
    (c pos n first : Nat)
    (hfirst : first = if pos + n ≤ c then n else c - pos)
    (hc : buf.length = c) (hpos : pos < c) (hn1 : n ≤ c - 1) (hc1 : 1 ≤ c)
    (hnd : n ≤ data.length) (k : Nat) (hk : k < c)
    (hknot : ∀ j, j < n → (pos + j) % c ≠ k) :
    (if first < n then
        listWrite (listWrite buf pos (data.take first)) 0
          ((data.drop first).take (n - first))
      else listWrite buf pos (data.take first)).getD k d = buf.getD k d := by
  by_cases hsplit : pos + n ≤ c
  · have hf : first = n := by rw [hfirst, if_pos hsplit]
    subst hf
    have htk : (data.take first).length = first := by
      simp [List.length_take]; omega
    have hout : k < pos ∨ pos + first ≤ k := by
      by_contra hcon
      push_neg at hcon
      refine hknot (k - pos) (by omega) ?_
      have hpk : pos + (k - pos) = k := by omega
      rw [hpk, Nat.mod_eq_of_lt hk]
    rw [if_neg (lt_irrefl first),
      listWrite_getD_out d buf pos (data.take first) k (by omega)]
  · have hf : first = c - pos := by rw [hfirst, if_neg hsplit]
    have hflt : first < n := by omega
    have htk : (data.take first).length = first := by
      simp [List.length_take]; omega
    have hseg : ((data.drop first).take (n - first)).length = n - first := by
      simp [List.length_take, List.length_drop]; omega
    have h1 : n - first ≤ k := by
      by_contra hcon
      push_neg at hcon
      refine hknot (first + k) (by omega) ?_
      have hck : pos + (first + k) = c + k := by omega
      rw [hck, Nat.add_mod_left, Nat.mod_eq_of_lt hk]
    have h2 : k < pos := by
      by_contra hcon
      push_neg at hcon
      refine hknot (k - pos) (by omega) ?_
      have hpk : pos + (k - pos) = k := by omega
      rw [hpk, Nat.mod_eq_of_lt hk]
    rw [if_pos hflt,
      listWrite_getD_out d _ 0 _ k (Or.inr (by omega)),
      listWrite_getD_out d buf pos (data.take first) k (Or.inl h2)]

/-- Characterisation of `write` with the inline availability computation
folded back into `space` (they are definitionally the same expression). -/
theorem write_space_char {α : Type} (rb : AudioRingBuffer α) (data : List α) :
    write rb data =
      if rb.capacity = 0 then (0, rb) else
      let n := min data.length rb.space
      if n = 0 then (0, rb) else
      let pos := rb.head % rb.capacity
      let first := if pos + n ≤ rb.capacity then n else rb.capacity - pos
      let buf1 := listWrite rb.buffer pos (data.take first)
      let buf2 := if first < n then
          listWrite buf1 0 ((data.drop first).take (n - first)) else buf1
      (n, { rb with buffer := buf2, head := (rb.head + n) % W }) := rfl

end CrossPad


namespace CrossPad

/-- The ring storage after a committed write of `n` elements of `data`
starting at slot `pos` of a capacity-`c` buffer: one contiguous copy, or
two when the write crosses the wrap boundary. -/
def writtenBuf {α : Type} (buf data : List α) (pos n c : Nat) : List α :=
  let first := if pos + n ≤ c then n else c - pos
  if first < n then
    listWrite (listWrite buf pos (data.take first)) 0
      ((data.drop first).take (n - first))
  else listWrite buf pos (data.take first)

theorem writtenBuf_length {α : Type} (buf data : List α) (pos n c : Nat) :
    (writtenBuf buf data pos n c).length = buf.length :=
  twoSeg_length buf data pos n (if pos + n ≤ c then n else c - pos)

theorem writtenBuf_getD_in {α : Type} (d : α) (buf data : List α)
    (c pos n : Nat) (hc : buf.length = c) (hpos : pos < c) (hn1 : n ≤ c - 1)
    (hc1 : 1 ≤ c) (hnd : n ≤ data.length) (j : Nat) (hj : j < n) :
    (writtenBuf buf data pos n c).getD ((pos + j) % c) d = data.getD j d :=
  twoSeg_getD_in d buf data c pos n _ rfl hc hpos hn1 hc1 hnd j hj

theorem writtenBuf_getD_out {α : Type} (d : α) (buf data : List α)
    (c pos n : Nat) (hc : buf.length = c) (hpos : pos < c) (hn1 : n ≤ c - 1)
    (hc1 : 1 ≤ c) (hnd : n ≤ data.length) (k : Nat) (hk : k < c)
    (hknot : ∀ j, j < n → (pos + j) % c ≠ k) :
    (writtenBuf buf data pos n c).getD k d = buf.getD k d :=
  twoSeg_getD_out d buf data c pos n _ rfl hc hpos hn1 hc1 hnd k hk hknot

theorem write_of_count_zero {α : Type} (rb : AudioRingBuffer α)
    (data : List α) (h : min data.length rb.space = 0) :
    write rb data = (0, rb) := by
  rw [write_space_char]
  by_cases hc : rb.capacity = 0 <;> simp [hc, h]

theorem write_of_count_pos {α : Type} (rb : AudioRingBuffer α)
    (data : List α) (hc : ¬ rb.capacity = 0)
    (h : ¬ min data.length rb.space = 0) :
    write rb data =
      (min data.length rb.space,
       { rb with
           buffer := writtenBuf rb.buffer data (rb.head % rb.capacity)
               (min data.length rb.space) rb.capacity,
           head := (rb.head + min data.length rb.space) % W }) := by
  rw [write_space_char]
  simp only [if_neg hc, if_neg h]
  rfl

end CrossPad

/-- Claim C9: a `write` of `count` elements returns `min(count, space)` where
the usable capacity is `capacity - 1`, copies exactly the returned number of
elements into the ring storage (at the cyclically consecutive slots starting
at `head % capacity`, leaving every other slot untouched), and a write
against a full buffer returns 0 and leaves the buffer unchanged. -/
theorem c9_write_truncation {α : Type} (d : α) (rb : AudioRingBuffer α)
    (data : List α) (hcap : 1 ≤ rb.capacity)
    (hlen : rb.buffer.length = rb.capacity) (hhead : rb.head < W) :
    (write rb data).1 = min data.length rb.space ∧
    (write rb data).2.tail = rb.tail ∧
    (write rb data).2.head = (rb.head + (write rb data).1) % W ∧
    (write rb data).2.buffer.length = rb.capacity ∧
    (write rb data).2.capacity = rb.capacity ∧
    (rb.space = 0 → (write rb data).2 = rb) ∧
    (∀ j, j < (write rb data).1 →
      (write rb data).2.buffer.getD
          ((rb.head % rb.capacity + j) % rb.capacity) d = data.getD j d) ∧
    (∀ k, k < rb.capacity →
      (∀ j, j < (write rb data).1 →
        (rb.head % rb.capacity + j) % rb.capacity ≠ k) →
      (write rb data).2.buffer.getD k d = rb.buffer.getD k d) := by
  have hc0 : ¬ rb.capacity = 0 := by omega
  by_cases hn0 : min data.length rb.space = 0
  · rw [write_of_count_zero rb data hn0]
    refine ⟨hn0.symm, rfl, ?_, hlen, rfl, fun _ => rfl, ?_, fun _ _ _ => rfl⟩
    · show rb.head = (rb.head + 0) % W
      rw [Nat.add_zero, Nat.mod_eq_of_lt hhead]
    · intro j hj
      exact absurd hj (by simp)
  · rw [write_of_count_pos rb data hc0 hn0]
    have hnd : min data.length rb.space ≤ data.length := Nat.min_le_left _ _
    have hnsp : min data.length rb.space ≤ rb.space := Nat.min_le_right _ _
    have hsp1 : rb.space ≤ rb.capacity - 1 := Nat.sub_le _ _
    have hpos : rb.head % rb.capacity < rb.capacity := Nat.mod_lt _ (by omega)
    refine ⟨rfl, rfl, rfl, ?_, rfl, ?_, ?_, ?_⟩
    · show (writtenBuf _ _ _ _ _).length = rb.capacity
      rw [writtenBuf_length, hlen]
    · intro hsp
      exact absurd hn0 (by simp [hsp])
    · intro j hj
      exact writtenBuf_getD_in d rb.buffer data rb.capacity
        (rb.head % rb.capacity) (min data.length rb.space) hlen hpos
        (by omega) hcap hnd j hj
    · intro k hk hknot
      exact writtenBuf_getD_out d rb.buffer data rb.capacity
        (rb.head % rb.capacity) (min data.length rb.space) hlen hpos
        (by omega) hcap hnd k hk hknot

/-- Witness instantiating the write-truncation theorem on the spec's
scenario: capacity 8, a 10-element write returns 7 = capacity - 1. -/
theorem c9_write_truncation_witness :
    (1 ≤ (mkRing 8 (0 : Int)).capacity ∧
     (mkRing 8 (0 : Int)).buffer.length = (mkRing 8 (0 : Int)).capacity ∧
     (mkRing 8 (0 : Int)).head < W) ∧
    (write (mkRing 8 (0 : Int)) [1, 2, 3, 4, 5, 6, 7, 8, 9, 10]).1 =
      min ([1, 2, 3, 4, 5, 6, 7, 8, 9, 10] : List Int).length
        (mkRing 8 (0 : Int)).space ∧
    (write (mkRing 8 (0 : Int)) [1, 2, 3, 4, 5, 6, 7, 8, 9, 10]).1 = 7 :=
  ⟨⟨by decide, by decide, by decide⟩,
   (c9_write_truncation 0 (mkRing 8 0) [1, 2, 3, 4, 5, 6, 7, 8, 9, 10]
     (by decide) (by decide) (by decide)).1,
   by decide⟩

namespace CrossPad

/-- Truncation toward zero of a rational, the model of
`static_cast<int32_t>(f)` applied to a (rational-modelled) `float`. -/
def ratTrunc (q : ℚ) : ℤ := Int.tdiv q.num q.den

/-- Arithmetic right shift by 8 of a signed 32-bit value, i.e. the C++
`x >> 8` on `int32_t`: floor division by 256. -/
def sar8 (x : ℤ) : ℤ := Int.fdiv x 256

/-- MIXER_NUM_INPUTS of AudioMixerEngine.hpp (IN1, IN2, SYNTH). -/
def MIXER_NUM_INPUTS : Nat := 3

/-- MIXER_NUM_OUTPUTS of AudioMixerEngine.hpp (OUT1, OUT2). -/
def MIXER_NUM_OUTPUTS : Nat := 2

/-- Control state of `AudioMixerEngine`: the atomic fields of `routes_`,
`channels_` and `outputs_` read by one pass of the mixer loop.  Arrays are
modelled as functions of the (C++ `int`) index; the engine only ever uses
indices below `MIXER_NUM_INPUTS` / `MIXER_NUM_OUTPUTS`. -/
structure MixerState where
  routeEnabled : Nat → Nat → Bool
  routeVolume : Nat → Nat → ℚ
  chVolume : Nat → ℚ
  chMuted : Nat → Bool
  chSoloed : Nat → Bool
  outVolume : Nat → ℚ
  outMuted : Nat → Bool

/-- The default-constructed engine (field initialisers of `MixerRoute`,
`MixerChannel`, `MixerOutputBus` in AudioMixerEngine.hpp): every volume
1.0, every route disabled, nothing muted or soloed. -/
def freshEngine : MixerState where
  routeEnabled := fun _ _ => false
  routeVolume := fun _ _ => 1
  chVolume := fun _ => 1
  chMuted := fun _ => false
  chSoloed := fun _ => false
  outVolume := fun _ => 1
  outMuted := fun _ => false

/-- Point update of a doubly-indexed control field. -/
def update2 {β : Type} (f : Nat → Nat → β) (i o : Nat) (v : β) :
    Nat → Nat → β :=
  fun i2 o2 => if i2 = i ∧ o2 = o then v else f i2 o2

/-- The member `setRouteEnabled`. -/
def setRouteEnabled (st : MixerState) (i o : Nat) (b : Bool) : MixerState :=
  { st with routeEnabled := update2 st.routeEnabled i o b }

/-- The member `setRouteVolume`. -/
def setRouteVolume (st : MixerState) (i o : Nat) (v : ℚ) : MixerState :=
  { st with routeVolume := update2 st.routeVolume i o v }

/-- The member `setChannelVolume`. -/
def setChannelVolume (st : MixerState) (i : Nat) (v : ℚ) : MixerState :=
  { st with chVolume := Function.update st.chVolume i v }

/-- The member `setChannelMute`. -/
def setChannelMute (st : MixerState) (i : Nat) (b : Bool) : MixerState :=
  { st with chMuted := Function.update st.chMuted i b }

/-- The member `setChannelSolo`. -/
def setChannelSolo (st : MixerState) (i : Nat) (b : Bool) : MixerState :=
  { st with chSoloed := Function.update st.chSoloed i b }

/-- The member `setOutputVolume`. -/
def setOutputVolume (st : MixerState) (o : Nat) (v : ℚ) : MixerState :=
  { st with outVolume := Function.update st.outVolume o v }

/-- The member `setOutputMute`. -/
def setOutputMute (st : MixerState) (o : Nat) (b : Bool) : MixerState :=
  { st with outMuted := Function.update st.outMuted o b }

/-- The member `isAnySoloed()`: scans channels 0 .. MIXER_NUM_INPUTS - 1. -/
def isAnySoloed (st : MixerState) : Bool :=
  (List.range MIXER_NUM_INPUTS).any st.chSoloed

/-- The fixed-point route gain of step 5 of the mixer loop:
`gain = chVol * routeVol; gainFP = (int32_t)(gain * 256.0f)`. -/
def gainFP (st : MixerState) (ch o : Nat) : ℤ :=
  ratTrunc (st.chVolume ch * st.routeVolume ch o * 256)

/-- The fixed-point output-bus gain of step 6:
`outGainFP = (int32_t)(outVol * 256.0f)`. -/
def outGainFP (st : MixerState) (o : Nat) : ℤ :=
  ratTrunc (st.outVolume o * 256)

/-- One channel's addend into the bus-`o` accumulator at interleaved sample
position `s`, after the `continue` guards of step 5 (mute first, then solo
suppression, then the per-route enable check). -/
def channelTerm (st : MixerState) (inBuf : Nat → Nat → ℤ) (ch o s : Nat) :
    ℤ :=
  if st.chMuted ch then 0
  else if isAnySoloed st && !st.chSoloed ch then 0
  else if st.routeEnabled ch o then sar8 (inBuf ch s * gainFP st ch o)
  else 0

/-- Step 5 of `mixerThreadFunc`: the value of `outAccum[o][s]` after the
channel loop, folding the channels in program order over the cleared
accumulator.  `inBuf ch s` is the interleaved `int16` input of channel
`ch` at position `s`. -/
def mixAccum (st : MixerState) (inBuf : Nat → Nat → ℤ) (o s : Nat) : ℤ :=
  (List.range MIXER_NUM_INPUTS).foldl
    (fun acc ch =>
      if st.chMuted ch then acc
      else if isAnySoloed st && !st.chSoloed ch then acc
      else if st.routeEnabled ch o then
        acc + sar8 (inBuf ch s * gainFP st ch o)
      else acc)
    0

/-- Saturation of the step-6 result to the signed 16-bit range. -/
def clamp16 (x : ℤ) : ℤ :=
  if x > 32767 then 32767 else if x < -32768 then -32768 else x

/-- Step 6 of `mixerThreadFunc` for one accumulated sample `acc`:
`s = outMuted ? 0 : (acc * outGainFP) >> 8`, then clamp to int16. -/
def outputSample (st : MixerState) (acc : ℤ) (o : Nat) : ℤ :=
  clamp16 (if st.outMuted o then 0 else sar8 (acc * outGainFP st o))

/-- The final interleaved output of bus `o` at position `s` for one chunk. -/
def mixOutput (st : MixerState) (inBuf : Nat → Nat → ℤ) (o s : Nat) : ℤ :=
  outputSample st (mixAccum st inBuf o s) o

theorem mixStep_eq (st : MixerState) (inBuf : Nat → Nat → ℤ)
    (o s : Nat) (acc : ℤ) (ch : Nat) :
    (if st.chMuted ch then acc
     else if isAnySoloed st && !st.chSoloed ch then acc
     else if st.routeEnabled ch o then
       acc + sar8 (inBuf ch s * gainFP st ch o)
     else acc) = acc + channelTerm st inBuf ch o s := by
  unfold channelTerm
  by_cases h1 : st.chMuted ch <;>
    by_cases h2 : isAnySoloed st && !st.chSoloed ch <;>
    by_cases h3 : st.routeEnabled ch o <;>
    simp [h1, h2, h3]

theorem mixAccum_eq_sum (st : MixerState) (inBuf : Nat → Nat → ℤ)
    (o s : Nat) :
    mixAccum st inBuf o s =
      ∑ ch ∈ Finset.range MIXER_NUM_INPUTS, channelTerm st inBuf ch o s := by
  have hr : List.range MIXER_NUM_INPUTS = [0, 1, 2] := rfl
  rw [mixAccum, hr]
  simp only [List.foldl_cons, List.foldl_nil, mixStep_eq]
  rw [show MIXER_NUM_INPUTS = 3 from rfl]
  rw [Finset.sum_range_succ, Finset.sum_range_succ, Finset.sum_range_one]
  ring

end CrossPad

namespace CrossPad

theorem channelTerm_congr (st st2 : MixerState) (a b : Nat → Nat → ℤ)
    (ch o s : Nat)
    (h1 : st2.chMuted ch = st.chMuted ch)
    (h2 : isAnySoloed st2 = isAnySoloed st)
    (h3 : st2.chSoloed ch = st.chSoloed ch)
    (h4 : st2.routeEnabled ch o = st.routeEnabled ch o)
    (h5 : st2.chVolume ch = st.chVolume ch)
    (h6 : st2.routeVolume ch o = st.routeVolume ch o)
    (h7 : b ch s = a ch s) :
    channelTerm st2 b ch o s = channelTerm st a ch o s := by
  unfold channelTerm gainFP
  rw [h1, h2, h3, h4, h5, h6, h7]

theorem mixAccum_congr (st st2 : MixerState) (a b : Nat → Nat → ℤ)
    (o s : Nat)
    (h : ∀ ch, ch < MIXER_NUM_INPUTS →
      channelTerm st2 b ch o s = channelTerm st a ch o s) :
    mixAccum st2 b o s = mixAccum st a o s := by
  rw [mixAccum_eq_sum, mixAccum_eq_sum]
  exact Finset.sum_congr rfl fun ch hch => h ch (Finset.mem_range.mp hch)

theorem channelTerm_of_muted (st : MixerState) (a : Nat → Nat → ℤ)
    (ch o s : Nat) (hm : st.chMuted ch = true) :
    channelTerm st a ch o s = 0 := by
  simp [channelTerm, hm]

theorem channelTerm_of_disabled (st : MixerState) (a : Nat → Nat → ℤ)
    (ch o s : Nat) (hen : st.routeEnabled ch o = false) :
    channelTerm st a ch o s = 0 := by
  simp [channelTerm, hen]

end CrossPad

/-- Claim C3: every output bus sample is the clamp to [-32768, 32767] of the
(zeroed-if-muted) bus-gain scaling `>> 8` of the sum, over the active
channels and enabled routes, of `(inputSample * trunc(chVol * routeVol *
256)) >> 8`, with the output gain applied the same way.  Fixed-point gains
are Q8.8 truncations of the rational-modelled float volumes. -/
theorem c3_gain_composition (st : MixerState) (inBuf : Nat → Nat → ℤ)
    (o s : Nat) :
    mixOutput st inBuf o s =
      clamp16 (if st.outMuted o then 0 else
        sar8 ((∑ ch ∈ Finset.range MIXER_NUM_INPUTS,
          if st.chMuted ch = false ∧
             ¬(isAnySoloed st = true ∧ st.chSoloed ch = false) ∧
             st.routeEnabled ch o = true
          then sar8 (inBuf ch s *
            ratTrunc (st.chVolume ch * st.routeVolume ch o * 256))
          else 0) * ratTrunc (st.outVolume o * 256))) := by
  have hterm : ∀ ch, channelTerm st inBuf ch o s =
      (if st.chMuted ch = false ∧
          ¬(isAnySoloed st = true ∧ st.chSoloed ch = false) ∧
          st.routeEnabled ch o = true
       then sar8 (inBuf ch s *
         ratTrunc (st.chVolume ch * st.routeVolume ch o * 256))
       else 0) := by
    intro ch
    unfold channelTerm gainFP
    by_cases h1 : st.chMuted ch <;> by_cases h2 : isAnySoloed st <;>
      by_cases h3 : st.chSoloed ch <;>
      by_cases h4 : st.routeEnabled ch o <;>
      simp [h1, h2, h3, h4]
  rw [mixOutput, outputSample, mixAccum_eq_sum, outGainFP]
  simp only [hterm]

/-- Claim C4: a muted channel's addend is zero and the chunk accumulator of
every bus is unchanged by the muted channel's input samples, its channel
volume, any of its route volumes and any of its route enables. -/
theorem c4_mute_dominance (st : CrossPad.MixerState)
    (inBuf inBuf2 : Nat → Nat → ℤ) (ch o s : Nat)
    (hm : st.chMuted ch = true)
    (hagree : ∀ c t, c ≠ ch → inBuf2 c t = inBuf c t) :
    CrossPad.channelTerm st inBuf ch o s = 0 ∧
    CrossPad.mixAccum st inBuf2 o s = CrossPad.mixAccum st inBuf o s ∧
    (∀ v, CrossPad.mixAccum (CrossPad.setChannelVolume st ch v) inBuf o s =
      CrossPad.mixAccum st inBuf o s) ∧
    (∀ o2 v, CrossPad.mixAccum (CrossPad.setRouteVolume st ch o2 v) inBuf o s =
      CrossPad.mixAccum st inBuf o s) ∧
    (∀ o2 b, CrossPad.mixAccum (CrossPad.setRouteEnabled st ch o2 b) inBuf o s =
      CrossPad.mixAccum st inBuf o s) := by
  refine ⟨CrossPad.channelTerm_of_muted st inBuf ch o s hm, ?_, ?_, ?_, ?_⟩
  · refine CrossPad.mixAccum_congr st st inBuf inBuf2 o s fun c _ => ?_
    by_cases hc : c = ch
    · subst hc
      rw [CrossPad.channelTerm_of_muted st inBuf2 c o s hm,
        CrossPad.channelTerm_of_muted st inBuf c o s hm]
    · exact CrossPad.channelTerm_congr st st inBuf inBuf2 c o s rfl rfl rfl
        rfl rfl rfl (hagree c s hc)
  · intro v
    refine CrossPad.mixAccum_congr st _ inBuf inBuf o s fun c _ => ?_
    by_cases hc : c = ch
    · subst hc
      rw [CrossPad.channelTerm_of_muted st inBuf c o s hm]
      exact CrossPad.channelTerm_of_muted _ inBuf c o s hm
    · exact CrossPad.channelTerm_congr st _ inBuf inBuf c o s rfl rfl rfl
        rfl (Function.update_noteq hc _ _) rfl rfl
  · intro o2 v
    refine CrossPad.mixAccum_congr st _ inBuf inBuf o s fun c _ => ?_
    by_cases hc : c = ch
    · subst hc
      rw [CrossPad.channelTerm_of_muted st inBuf c o s hm]
      exact CrossPad.channelTerm_of_muted _ inBuf c o s hm
    · refine CrossPad.channelTerm_congr st _ inBuf inBuf c o s rfl rfl rfl
        rfl rfl ?_ rfl
      simp [CrossPad.setRouteVolume, CrossPad.update2, hc]
  · intro o2 b
    refine CrossPad.mixAccum_congr st _ inBuf inBuf o s fun c _ => ?_
    by_cases hc : c = ch
    · subst hc
      rw [CrossPad.channelTerm_of_muted st inBuf c o s hm]
      exact CrossPad.channelTerm_of_muted _ inBuf c o s hm
    · refine CrossPad.channelTerm_congr st _ inBuf inBuf c o s rfl rfl rfl
        ?_ rfl rfl rfl
      simp [CrossPad.setRouteEnabled, CrossPad.update2, hc]

namespace CrossPad

/-- A control state built through the engine's API: route IN1 to OUT1,
then mute IN1. -/
def muteDemo : MixerState :=
  setChannelMute (setRouteEnabled freshEngine 0 0 true) 0 true

/-- A control state built through the engine's API: routes SYNTH to OUT1
and IN1 to OUT1, then soloes SYNTH. -/
def soloDemo : MixerState :=
  setChannelSolo (setRouteEnabled (setRouteEnabled freshEngine 2 0 true) 0 0 true) 2 true

/-- The comparison state in which no channel is soloed (everything else is
kept); this is the state the spec means by a channel contributing as it
would without solo. -/
def clearSolo (st : MixerState) : MixerState :=
  { st with chSoloed := fun _ => false }

end CrossPad

/-- Witness instantiating mute dominance: IN1 routed to OUT1 and muted,
constant input 100 on every channel. -/
theorem c4_mute_dominance_witness :
    CrossPad.muteDemo.chMuted 0 = true ∧
    (CrossPad.channelTerm CrossPad.muteDemo (fun _ _ => 100) 0 0 0 = 0 ∧
     CrossPad.mixAccum CrossPad.muteDemo (fun _ _ => 100) 0 0 =
       CrossPad.mixAccum CrossPad.muteDemo (fun _ _ => 100) 0 0 ∧
     (∀ v, CrossPad.mixAccum
        (CrossPad.setChannelVolume CrossPad.muteDemo 0 v) (fun _ _ => 100) 0 0 =
        CrossPad.mixAccum CrossPad.muteDemo (fun _ _ => 100) 0 0) ∧
     (∀ o2 v, CrossPad.mixAccum
        (CrossPad.setRouteVolume CrossPad.muteDemo 0 o2 v) (fun _ _ => 100) 0 0 =
        CrossPad.mixAccum CrossPad.muteDemo (fun _ _ => 100) 0 0) ∧
     (∀ o2 b, CrossPad.mixAccum
        (CrossPad.setRouteEnabled CrossPad.muteDemo 0 o2 b) (fun _ _ => 100) 0 0 =
        CrossPad.mixAccum CrossPad.muteDemo (fun _ _ => 100) 0 0)) :=
  ⟨by decide,
   c4_mute_dominance CrossPad.muteDemo (fun _ _ => 100) (fun _ _ => 100)
     0 0 0 (by decide) (fun _ _ _ => rfl)⟩

/-- Claim C5: when any channel is soloed, a non-soloed channel's addend is
zero; a soloed, unmuted channel's addend is exactly what it would be with
all solo flags cleared; a soloed but muted channel still adds zero (mute is
checked first); hence the accumulator is the sum of the soloed channels'
addends alone. -/
theorem c5_solo_exclusivity (st : CrossPad.MixerState)
    (inBuf : Nat → Nat → ℤ) (ch o s : Nat)
    (hsolo : CrossPad.isAnySoloed st = true) :
    (st.chSoloed ch = false → CrossPad.channelTerm st inBuf ch o s = 0) ∧
    (st.chSoloed ch = true → st.chMuted ch = false →
      CrossPad.channelTerm st inBuf ch o s =
        CrossPad.channelTerm (CrossPad.clearSolo st) inBuf ch o s) ∧
    (st.chMuted ch = true → CrossPad.channelTerm st inBuf ch o s = 0) ∧
    CrossPad.mixAccum st inBuf o s =
      ∑ c ∈ Finset.range CrossPad.MIXER_NUM_INPUTS,
        (if st.chSoloed c = true then CrossPad.channelTerm st inBuf c o s
         else 0) := by
  have hzero : ∀ c, st.chSoloed c = false →
      CrossPad.channelTerm st inBuf c o s = 0 := by
    intro c hcs
    by_cases hmut : st.chMuted c
    · exact CrossPad.channelTerm_of_muted st inBuf c o s hmut
    · simp [CrossPad.channelTerm, hmut, hsolo, hcs]
  refine ⟨hzero ch, ?_, CrossPad.channelTerm_of_muted st inBuf ch o s, ?_⟩
  · intro hcs hmut
    have hnosolo : CrossPad.isAnySoloed
        { st with chSoloed := fun _ => false } = false := rfl
    simp [CrossPad.channelTerm, CrossPad.clearSolo, CrossPad.gainFP, hmut,
      hsolo, hcs, hnosolo]
  · rw [CrossPad.mixAccum_eq_sum]
    refine Finset.sum_congr rfl fun c _ => ?_
    by_cases hcs : st.chSoloed c
    · rw [if_pos hcs]
    · rw [if_neg (by simp [hcs]), hzero c (by simp [hcs])]

/-- Witness instantiating solo exclusivity: SYNTH (channel 2) soloed, SYNTH
and IN1 both routed to OUT1, constant input 100. -/
theorem c5_solo_exclusivity_witness :
    CrossPad.isAnySoloed CrossPad.soloDemo = true ∧
    ((CrossPad.soloDemo.chSoloed 0 = false →
      CrossPad.channelTerm CrossPad.soloDemo (fun _ _ => 100) 0 0 0 = 0) ∧
     (CrossPad.soloDemo.chSoloed 0 = true → CrossPad.soloDemo.chMuted 0 = false →
      CrossPad.channelTerm CrossPad.soloDemo (fun _ _ => 100) 0 0 0 =
        CrossPad.channelTerm (CrossPad.clearSolo CrossPad.soloDemo)
          (fun _ _ => 100) 0 0 0) ∧
     (CrossPad.soloDemo.chMuted 0 = true →
      CrossPad.channelTerm CrossPad.soloDemo (fun _ _ => 100) 0 0 0 = 0) ∧
     CrossPad.mixAccum CrossPad.soloDemo (fun _ _ => 100) 0 0 =
       ∑ c ∈ Finset.range CrossPad.MIXER_NUM_INPUTS,
         (if CrossPad.soloDemo.chSoloed c = true then
            CrossPad.channelTerm CrossPad.soloDemo (fun _ _ => 100) c 0 0
          else 0)) :=
  ⟨by decide,
   c5_solo_exclusivity CrossPad.soloDemo (fun _ _ => 100) 0 0 0 (by decide)⟩

/-- Claim C6: a disabled route contributes nothing: the channel's addend for
that bus is zero, and the bus accumulator is unchanged by the route's volume
and by the channel's input samples, with no assumption on mute, solo or any
volume. -/
theorem c6_route_gating (st : CrossPad.MixerState)
    (inBuf inBuf2 : Nat → Nat → ℤ) (ch o s : Nat)
    (hen : st.routeEnabled ch o = false)
    (hagree : ∀ c t, c ≠ ch → inBuf2 c t = inBuf c t) :
    CrossPad.channelTerm st inBuf ch o s = 0 ∧
    (∀ v, CrossPad.mixAccum (CrossPad.setRouteVolume st ch o v) inBuf o s =
      CrossPad.mixAccum st inBuf o s) ∧
    CrossPad.mixAccum st inBuf2 o s = CrossPad.mixAccum st inBuf o s := by
  refine ⟨CrossPad.channelTerm_of_disabled st inBuf ch o s hen, ?_, ?_⟩
  · intro v
    refine CrossPad.mixAccum_congr st _ inBuf inBuf o s fun c _ => ?_
    by_cases hc : c = ch
    · subst hc
      rw [CrossPad.channelTerm_of_disabled st inBuf c o s hen]
      exact CrossPad.channelTerm_of_disabled _ inBuf c o s hen
    · refine CrossPad.channelTerm_congr st _ inBuf inBuf c o s rfl rfl rfl
        rfl rfl ?_ rfl
      simp [CrossPad.setRouteVolume, CrossPad.update2, hc]
  · refine CrossPad.mixAccum_congr st st inBuf inBuf2 o s fun c _ => ?_
    by_cases hc : c = ch
    · subst hc
      rw [CrossPad.channelTerm_of_disabled st inBuf c o s hen]
      exact CrossPad.channelTerm_of_disabled st inBuf2 c o s hen
    · exact CrossPad.channelTerm_congr st st inBuf inBuf2 c o s rfl rfl rfl
        rfl rfl rfl (hagree c s hc)

/-- Witness instantiating route gating on the fresh engine, where every
route is disabled: channel 0 to bus 0, constant input 100. -/
theorem c6_route_gating_witness :
    CrossPad.freshEngine.routeEnabled 0 0 = false ∧
    (CrossPad.channelTerm CrossPad.freshEngine (fun _ _ => 100) 0 0 0 = 0 ∧
     (∀ v, CrossPad.mixAccum
        (CrossPad.setRouteVolume CrossPad.freshEngine 0 0 v) (fun _ _ => 100) 0 0 =
        CrossPad.mixAccum CrossPad.freshEngine (fun _ _ => 100) 0 0) ∧
     CrossPad.mixAccum CrossPad.freshEngine (fun _ _ => 100) 0 0 =
       CrossPad.mixAccum CrossPad.freshEngine (fun _ _ => 100) 0 0) :=
  ⟨rfl,
   c6_route_gating CrossPad.freshEngine (fun _ _ => 100) (fun _ _ => 100)
     0 0 0 rfl (fun _ _ _ => rfl)⟩

namespace CrossPad

/-- Narrowing of an `int` value to `int16_t` (two's-complement wrap, the
behaviour of the targeted implementations and of C++20). -/
def wrap16 (x : ℤ) : ℤ := (x + 32768) % 65536 - 32768

/-- The per-sample magnitude computed by `computePeak`:
`buf[k] < 0 ? (int16_t)-buf[k] : buf[k]` — the negation happens after
integer promotion and the result is narrowed back to `int16_t`. -/
def absI16 (x : ℤ) : ℤ := if x < 0 then wrap16 (-x) else x

/-- The helper `computePeak(buf, frames, peakL, peakR)`: one pass over the
interleaved stereo chunk with running maxima `maxL`/`maxR` starting at 0;
the returned pair is what gets stored into the channel's `peakL`/`peakR`
(overwritten each chunk, never accumulated across chunks). -/
def computePeak (buf : List ℤ) (frames : Nat) : ℤ × ℤ :=
  (List.range frames).foldl
    (fun m i =>
      ((if absI16 (buf.getD (2 * i) 0) > m.1 then absI16 (buf.getD (2 * i) 0)
        else m.1),
       (if absI16 (buf.getD (2 * i + 1) 0) > m.2 then
          absI16 (buf.getD (2 * i + 1) 0)
        else m.2)))
    (0, 0)

theorem computePeak_succ (buf : List ℤ) (n : Nat) :
    computePeak buf (n + 1) =
      ((if absI16 (buf.getD (2 * n) 0) > (computePeak buf n).1 then
          absI16 (buf.getD (2 * n) 0)
        else (computePeak buf n).1),
       (if absI16 (buf.getD (2 * n + 1) 0) > (computePeak buf n).2 then
          absI16 (buf.getD (2 * n + 1) 0)
        else (computePeak buf n).2)) := by
  unfold computePeak
  rw [List.range_succ, List.foldl_append, List.foldl_cons, List.foldl_nil]

theorem absI16_eq_natAbs (x : ℤ) (h : -32767 ≤ x) :
    absI16 x = (x.natAbs : ℤ) := by
  unfold absI16 wrap16
  by_cases hx : x < 0
  · rw [if_pos hx]
    omega
  · rw [if_neg hx]
    omega

theorem runningMax_eq (a m : ℤ) : (if a > m then a else m) = max m a := by
  rw [max_def]
  split_ifs <;> omega

end CrossPad

/-- Claim C2 counterexample: on the one-frame chunk with left sample
-32768, the claim says the stored peakL is max |sample| = 32768, but
`computePeak` yields 0: the promoted negation 32768 narrows to the
`int16_t` value -32768, which never exceeds the running maximum. -/
theorem c2_peak_counterexample :
    (CrossPad.computePeak [-32768, 5] 1).1 = 0 ∧
    (Finset.range 1).sup
        (fun i => (([-32768, 5] : List ℤ).getD (2 * i) 0).natAbs) = 32768 ∧
    (0 : ℤ) ≠ ((32768 : Nat) : ℤ) := by
  refine ⟨by decide, by decide, by decide⟩

/-- Claim C2 (amended): for a chunk whose samples all lie in
[-32767, 32767], the stored peakL / peakR equal the maximum absolute value
of the left / right interleaved samples (0 for an empty chunk); the peaks
are a function of the most recent chunk alone and of no mixer control
state.  A sample equal to -32768 is excluded: its wrapped magnitude is
negative and cannot raise the peak. -/
theorem c2_peak_measurement (buf : List ℤ) (frames : Nat)
    (hin : ∀ i, i < 2 * frames →
      -32767 ≤ buf.getD i 0 ∧ buf.getD i 0 ≤ 32767) :
    (CrossPad.computePeak buf frames).1 =
      (((Finset.range frames).sup
        fun i => (buf.getD (2 * i) 0).natAbs : ℕ) : ℤ) ∧
    (CrossPad.computePeak buf frames).2 =
      (((Finset.range frames).sup
        fun i => (buf.getD (2 * i + 1) 0).natAbs : ℕ) : ℤ) := by
  induction frames with
  | zero => simp [CrossPad.computePeak]
  | succ n ih =>
    obtain ⟨ih1, ih2⟩ := ih fun i hi => hin i (by omega)
    rw [CrossPad.computePeak_succ]
    dsimp only
    rw [Finset.range_succ, Finset.sup_insert, Finset.sup_insert]
    constructor
    · rw [ih1, CrossPad.absI16_eq_natAbs _ (hin (2 * n) (by omega)).1,
        CrossPad.runningMax_eq]
      rw [sup_eq_max, Nat.cast_max, max_comm]
    · rw [ih2, CrossPad.absI16_eq_natAbs _ (hin (2 * n + 1) (by omega)).1,
        CrossPad.runningMax_eq]
      rw [sup_eq_max, Nat.cast_max, max_comm]

/-- Witness instantiating the amended peak theorem on the one-frame chunk
(100, -200): peakL = 100, peakR = 200. -/
theorem c2_peak_measurement_witness :
    (∀ i, i < 2 * 1 →
      -32767 ≤ ([100, -200] : List ℤ).getD i 0 ∧
      ([100, -200] : List ℤ).getD i 0 ≤ 32767) ∧
    ((CrossPad.computePeak [100, -200] 1).1 =
      (((Finset.range 1).sup
        fun i => (([100, -200] : List ℤ).getD (2 * i) 0).natAbs : ℕ) : ℤ) ∧
     (CrossPad.computePeak [100, -200] 1).2 =
      (((Finset.range 1).sup
        fun i => (([100, -200] : List ℤ).getD (2 * i + 1) 0).natAbs : ℕ) : ℤ)) :=
  ⟨by decide, c2_peak_measurement [100, -200] 1 (by decide)⟩

namespace CrossPad

/-- The member `setDefaults()`: the loops write `enabled := false`,
`volume := 1.0` over every route, unity/false over every channel and
output, then enable SYNTH (input 2) to OUT1 (output 0); indices outside
the loop bounds are untouched. -/
def setDefaults (st : MixerState) : MixerState where
  routeEnabled := fun i o =>
    if i < MIXER_NUM_INPUTS ∧ o < MIXER_NUM_OUTPUTS then decide (i = 2 ∧ o = 0)
    else st.routeEnabled i o
  routeVolume := fun i o =>
    if i < MIXER_NUM_INPUTS ∧ o < MIXER_NUM_OUTPUTS then 1
    else st.routeVolume i o
  chVolume := fun i => if i < MIXER_NUM_INPUTS then 1 else st.chVolume i
  chMuted := fun i => if i < MIXER_NUM_INPUTS then false else st.chMuted i
  chSoloed := fun i => if i < MIXER_NUM_INPUTS then false else st.chSoloed i
  outVolume := fun o => if o < MIXER_NUM_OUTPUTS then 1 else st.outVolume o
  outMuted := fun o => if o < MIXER_NUM_OUTPUTS then false else st.outMuted o

/-- One object of the `routes` array: fields `in`, `out`, `enabled`,
`volume`, each possibly absent from the document. -/
structure RouteEntry where
  inIdx : Option ℤ
  outIdx : Option ℤ
  enabled : Option Bool
  volume : Option ℚ

/-- One object of the `channels` array. -/
structure ChannelEntry where
  volume : Option ℚ
  muted : Option Bool
  soloed : Option Bool

/-- One object of the `outputs` array. -/
structure OutputEntry where
  volume : Option ℚ
  muted : Option Bool

/-- The structured document written by `saveState` and parsed by
`loadState`; each top-level array may be absent. -/
structure MixerDoc where
  routes : Option (List RouteEntry)
  channels : Option (List ChannelEntry)
  outputs : Option (List OutputEntry)

/-- The member `saveState`: every route (outer loop over inputs, inner over
outputs, unrolled at the constant bounds 3 x 2), every channel and every
output, all fields present. -/
def saveState (st : MixerState) : MixerDoc where
  routes := some
    [⟨some 0, some 0, some (st.routeEnabled 0 0), some (st.routeVolume 0 0)⟩,
     ⟨some 0, some 1, some (st.routeEnabled 0 1), some (st.routeVolume 0 1)⟩,
     ⟨some 1, some 0, some (st.routeEnabled 1 0), some (st.routeVolume 1 0)⟩,
     ⟨some 1, some 1, some (st.routeEnabled 1 1), some (st.routeVolume 1 1)⟩,
     ⟨some 2, some 0, some (st.routeEnabled 2 0), some (st.routeVolume 2 0)⟩,
     ⟨some 2, some 1, some (st.routeEnabled 2 1), some (st.routeVolume 2 1)⟩]
  channels := some
    [⟨some (st.chVolume 0), some (st.chMuted 0), some (st.chSoloed 0)⟩,
     ⟨some (st.chVolume 1), some (st.chMuted 1), some (st.chSoloed 1)⟩,
     ⟨some (st.chVolume 2), some (st.chMuted 2), some (st.chSoloed 2)⟩]
  outputs := some
    [⟨some (st.outVolume 0), some (st.outMuted 0)⟩,
     ⟨some (st.outVolume 1), some (st.outMuted 1)⟩]

/-- One iteration of the `routes` loop of `loadState`:
`int i = r["in"] | 0; int o = r["out"] | 0;` then the bounds check, then
both stores with their per-field defaults. -/
def applyRoute (st : MixerState) (r : RouteEntry) : MixerState :=
  let i := r.inIdx.getD 0
  let o := r.outIdx.getD 0
  if 0 ≤ i ∧ i < (MIXER_NUM_INPUTS : ℤ) ∧ 0 ≤ o ∧ o < (MIXER_NUM_OUTPUTS : ℤ)
  then
    { st with
        routeEnabled := update2 st.routeEnabled i.toNat o.toNat
          (r.enabled.getD false),
        routeVolume := update2 st.routeVolume i.toNat o.toNat
          (r.volume.getD 1) }
  else st

/-- One iteration of the `channels` loop of `loadState`. -/
def applyChannel (st : MixerState) (idx : Nat) (c : ChannelEntry) :
    MixerState :=
  { st with
      chVolume := Function.update st.chVolume idx (c.volume.getD 1),
      chMuted := Function.update st.chMuted idx (c.muted.getD false),
      chSoloed := Function.update st.chSoloed idx (c.soloed.getD false) }

/-- The `channels` loop of `loadState`: running index with the
`idx >= MIXER_NUM_INPUTS` break. -/
def applyChannels (st : MixerState) (idx : Nat) :
    List ChannelEntry → MixerState
  | [] => st
  | c :: rest =>
    if MIXER_NUM_INPUTS ≤ idx then st
    else applyChannels (applyChannel st idx c) (idx + 1) rest

/-- One iteration of the `outputs` loop of `loadState`. -/
def applyOutput (st : MixerState) (idx : Nat) (ob : OutputEntry) :
    MixerState :=
  { st with
      outVolume := Function.update st.outVolume idx (ob.volume.getD 1),
      outMuted := Function.update st.outMuted idx (ob.muted.getD false) }

/-- The `outputs` loop of `loadState`: running index with the
`idx >= MIXER_NUM_OUTPUTS` break. -/
def applyOutputs (st : MixerState) (idx : Nat) :
    List OutputEntry → MixerState
  | [] => st
  | ob :: rest =>
    if MIXER_NUM_OUTPUTS ≤ idx then st
    else applyOutputs (applyOutput st idx ob) (idx + 1) rest

/-- The member `loadState`: `none` models an unreadable location or a
parse error (fall back to `setDefaults`, no error raised); a parsed
document applies each present array in order, each absent array leaving
the corresponding fields of the engine untouched. -/
def loadState (st : MixerState) : Option MixerDoc → MixerState
  | none => setDefaults st
  | some doc =>
    let st1 := match doc.routes with
      | none => st
      | some rs => rs.foldl applyRoute st
    let st2 := match doc.channels with
      | none => st1
      | some cs => applyChannels st1 0 cs
    match doc.outputs with
      | none => st2
      | some os => applyOutputs st2 0 os

end CrossPad

/-- Claim C7: saving an arbitrary control state and loading the document
into a fresh (default-constructed) engine reproduces every route, channel
and output value. -/
theorem c7_persistence_roundtrip (st : CrossPad.MixerState) (i o : Nat)
    (hi : i < CrossPad.MIXER_NUM_INPUTS)
    (ho : o < CrossPad.MIXER_NUM_OUTPUTS) :
    (CrossPad.loadState CrossPad.freshEngine
        (some (CrossPad.saveState st))).routeEnabled i o =
      st.routeEnabled i o ∧
    (CrossPad.loadState CrossPad.freshEngine
        (some (CrossPad.saveState st))).routeVolume i o =
      st.routeVolume i o ∧
    (CrossPad.loadState CrossPad.freshEngine
        (some (CrossPad.saveState st))).chVolume i = st.chVolume i ∧
    (CrossPad.loadState CrossPad.freshEngine
        (some (CrossPad.saveState st))).chMuted i = st.chMuted i ∧
    (CrossPad.loadState CrossPad.freshEngine
        (some (CrossPad.saveState st))).chSoloed i = st.chSoloed i ∧
    (CrossPad.loadState CrossPad.freshEngine
        (some (CrossPad.saveState st))).outVolume o = st.outVolume o ∧
    (CrossPad.loadState CrossPad.freshEngine
        (some (CrossPad.saveState st))).outMuted o = st.outMuted o := by
  have hi3 : i < 3 := hi
  have ho2 : o < 2 := ho
  interval_cases i <;> interval_cases o <;>
    simp [CrossPad.loadState, CrossPad.saveState, CrossPad.applyRoute,
      CrossPad.applyChannels, CrossPad.applyChannel, CrossPad.applyOutputs,
      CrossPad.applyOutput, CrossPad.update2, Function.update,
      CrossPad.MIXER_NUM_INPUTS, CrossPad.MIXER_NUM_OUTPUTS]

/-- Witness instantiating the persistence round trip on the solo demo
state at route SYNTH to OUT1. -/
theorem c7_persistence_roundtrip_witness :
    (2 < CrossPad.MIXER_NUM_INPUTS ∧ 0 < CrossPad.MIXER_NUM_OUTPUTS) ∧
    ((CrossPad.loadState CrossPad.freshEngine
        (some (CrossPad.saveState CrossPad.soloDemo))).routeEnabled 2 0 =
      CrossPad.soloDemo.routeEnabled 2 0 ∧
     (CrossPad.loadState CrossPad.freshEngine
        (some (CrossPad.saveState CrossPad.soloDemo))).routeVolume 2 0 =
      CrossPad.soloDemo.routeVolume 2 0 ∧
     (CrossPad.loadState CrossPad.freshEngine
        (some (CrossPad.saveState CrossPad.soloDemo))).chVolume 2 =
      CrossPad.soloDemo.chVolume 2 ∧
     (CrossPad.loadState CrossPad.freshEngine
        (some (CrossPad.saveState CrossPad.soloDemo))).chMuted 2 =
      CrossPad.soloDemo.chMuted 2 ∧
     (CrossPad.loadState CrossPad.freshEngine
        (some (CrossPad.saveState CrossPad.soloDemo))).chSoloed 2 =
      CrossPad.soloDemo.chSoloed 2 ∧
     (CrossPad.loadState CrossPad.freshEngine
        (some (CrossPad.saveState CrossPad.soloDemo))).outVolume 0 =
      CrossPad.soloDemo.outVolume 0 ∧
     (CrossPad.loadState CrossPad.freshEngine
        (some (CrossPad.saveState CrossPad.soloDemo))).outMuted 0 =
      CrossPad.soloDemo.outMuted 0) :=
  ⟨⟨by decide, by decide⟩,
   c7_persistence_roundtrip CrossPad.soloDemo 2 0 (by decide) (by decide)⟩

/-- Claim C8: an unreadable or unparsable location makes `loadState` install
exactly the hard-coded defaults (only SYNTH to OUT1 enabled, all volumes 1,
nothing muted or soloed) with no error; for a readable document, each field
absent from a present entry defaults independently (volume to 1,
enabled / muted / soloed to false) while present fields are taken as-is. -/
theorem c8_loadstate_degradation (st0 : CrossPad.MixerState) (i o : Nat)
    (hi : i < CrossPad.MIXER_NUM_INPUTS)
    (ho : o < CrossPad.MIXER_NUM_OUTPUTS)
    (eb : Option Bool) (vol cv : Option ℚ) (cm cs : Option Bool)
    (ov : Option ℚ) (om : Option Bool) :
    ((CrossPad.loadState st0 none).routeEnabled i o = decide (i = 2 ∧ o = 0) ∧
     (CrossPad.loadState st0 none).routeVolume i o = 1 ∧
     (CrossPad.loadState st0 none).chVolume i = 1 ∧
     (CrossPad.loadState st0 none).chMuted i = false ∧
     (CrossPad.loadState st0 none).chSoloed i = false ∧
     (CrossPad.loadState st0 none).outVolume o = 1 ∧
     (CrossPad.loadState st0 none).outMuted o = false) ∧
    ((CrossPad.loadState st0 (some ⟨some [⟨some (i : ℤ), some (o : ℤ), eb, vol⟩],
        some [⟨cv, cm, cs⟩], some [⟨ov, om⟩]⟩)).routeEnabled i o =
      eb.getD false ∧
     (CrossPad.loadState st0 (some ⟨some [⟨some (i : ℤ), some (o : ℤ), eb, vol⟩],
        some [⟨cv, cm, cs⟩], some [⟨ov, om⟩]⟩)).routeVolume i o =
      vol.getD 1 ∧
     (CrossPad.loadState st0 (some ⟨some [⟨some (i : ℤ), some (o : ℤ), eb, vol⟩],
        some [⟨cv, cm, cs⟩], some [⟨ov, om⟩]⟩)).chVolume 0 = cv.getD 1 ∧
     (CrossPad.loadState st0 (some ⟨some [⟨some (i : ℤ), some (o : ℤ), eb, vol⟩],
        some [⟨cv, cm, cs⟩], some [⟨ov, om⟩]⟩)).chMuted 0 = cm.getD false ∧
     (CrossPad.loadState st0 (some ⟨some [⟨some (i : ℤ), some (o : ℤ), eb, vol⟩],
        some [⟨cv, cm, cs⟩], some [⟨ov, om⟩]⟩)).chSoloed 0 = cs.getD false ∧
     (CrossPad.loadState st0 (some ⟨some [⟨some (i : ℤ), some (o : ℤ), eb, vol⟩],
        some [⟨cv, cm, cs⟩], some [⟨ov, om⟩]⟩)).outVolume 0 = ov.getD 1 ∧
     (CrossPad.loadState st0 (some ⟨some [⟨some (i : ℤ), some (o : ℤ), eb, vol⟩],
        some [⟨cv, cm, cs⟩], some [⟨ov, om⟩]⟩)).outMuted 0 = om.getD false) := by
  have hi3 : i < 3 := hi
  have ho2 : o < 2 := ho
  interval_cases i <;> interval_cases o <;>
    simp [CrossPad.loadState, CrossPad.setDefaults, CrossPad.applyRoute,
      CrossPad.applyChannels, CrossPad.applyChannel, CrossPad.applyOutputs,
      CrossPad.applyOutput, CrossPad.update2, Function.update,
      CrossPad.MIXER_NUM_INPUTS, CrossPad.MIXER_NUM_OUTPUTS]

/-- Witness instantiating the degradation theorem: route entry for
IN2 to OUT2 with absent `enabled` and present volume 1/2; channel entry
with everything absent; output entry with absent volume, present mute. -/
theorem c8_loadstate_degradation_witness :
    (1 < CrossPad.MIXER_NUM_INPUTS ∧ 1 < CrossPad.MIXER_NUM_OUTPUTS) ∧
    (((CrossPad.loadState CrossPad.muteDemo none).routeEnabled 1 1 =
        decide ((1 : Nat) = 2 ∧ (1 : Nat) = 0) ∧
      (CrossPad.loadState CrossPad.muteDemo none).routeVolume 1 1 = 1 ∧
      (CrossPad.loadState CrossPad.muteDemo none).chVolume 1 = 1 ∧
      (CrossPad.loadState CrossPad.muteDemo none).chMuted 1 = false ∧
      (CrossPad.loadState CrossPad.muteDemo none).chSoloed 1 = false ∧
      (CrossPad.loadState CrossPad.muteDemo none).outVolume 1 = 1 ∧
      (CrossPad.loadState CrossPad.muteDemo none).outMuted 1 = false) ∧
     ((CrossPad.loadState CrossPad.muteDemo
          (some ⟨some [⟨some ((1 : Nat) : ℤ), some ((1 : Nat) : ℤ), none, some (1/2)⟩],
            some [⟨none, none, none⟩], some [⟨none, some true⟩]⟩)).routeEnabled 1 1 =
        Option.getD none false ∧
      (CrossPad.loadState CrossPad.muteDemo
          (some ⟨some [⟨some ((1 : Nat) : ℤ), some ((1 : Nat) : ℤ), none, some (1/2)⟩],
            some [⟨none, none, none⟩], some [⟨none, some true⟩]⟩)).routeVolume 1 1 =
        Option.getD (some (1/2)) 1 ∧
      (CrossPad.loadState CrossPad.muteDemo
          (some ⟨some [⟨some ((1 : Nat) : ℤ), some ((1 : Nat) : ℤ), none, some (1/2)⟩],
            some [⟨none, none, none⟩], some [⟨none, some true⟩]⟩)).chVolume 0 =
        Option.getD none 1 ∧
      (CrossPad.loadState CrossPad.muteDemo
          (some ⟨some [⟨some ((1 : Nat) : ℤ), some ((1 : Nat) : ℤ), none, some (1/2)⟩],
            some [⟨none, none, none⟩], some [⟨none, some true⟩]⟩)).chMuted 0 =
        Option.getD none false ∧
      (CrossPad.loadState CrossPad.muteDemo
          (some ⟨some [⟨some ((1 : Nat) : ℤ), some ((1 : Nat) : ℤ), none, some (1/2)⟩],
            some [⟨none, none, none⟩], some [⟨none, some true⟩]⟩)).chSoloed 0 =
        Option.getD none false ∧
      (CrossPad.loadState CrossPad.muteDemo
          (some ⟨some [⟨some ((1 : Nat) : ℤ), some ((1 : Nat) : ℤ), none, some (1/2)⟩],
            some [⟨none, none, none⟩], some [⟨none, some true⟩]⟩)).outVolume 0 =
        Option.getD none 1 ∧
      (CrossPad.loadState CrossPad.muteDemo
          (some ⟨some [⟨some ((1 : Nat) : ℤ), some ((1 : Nat) : ℤ), none, some (1/2)⟩],
            some [⟨none, none, none⟩], some [⟨none, some true⟩]⟩)).outMuted 0 =
        Option.getD (some true) false)) :=
  ⟨⟨by decide, by decide⟩,
   c8_loadstate_degradation CrossPad.muteDemo 1 1 (by decide) (by decide)
     none (some (1/2)) none none none none (some true)⟩
